import Mathlib

/-!
Verification development for the SoundCloud auto-liker bot
(`src/soundcloud_bot.py`).  The Python pipeline is shallowly embedded:
dictionaries become structures, the mutable `processed_tracks` set becomes an
explicit `Finset ℤ` threaded through the functions, remote calls become an
oracle `Int → Bool` (success indicator of `client.like_track`), and the
observable side effects that the specification talks about (remote like calls,
filter evaluations, recency evaluations, file writes) are recorded in the
returned state.  Python exceptions that the code catches locally are modelled
by the corresponding fallback value; exceptions that propagate are modelled
with `Except`.
-/

namespace SoundcloudBot

/-- `user` sub-dictionary produced by `get_track_info`:
`{'username': ..., 'id': ...}` where the id may be `None`. -/
structure TrackUser where
  username : String
  id : Option Int
deriving DecidableEq, Repr

/-- The track dictionary produced by `get_track_info`.  Field defaults in the
source are `id = None`, `title = 'Unknown'`, `permalink_url = ''`,
`duration = 0` (milliseconds), `genre = ''`, `likes_count = 0`,
`created_at = ''`. -/
structure Track where
  id : Option Int
  title : String
  permalink_url : String
  duration : Int
  genre : String
  likes_count : Int
  created_at : String
  user : TrackUser
deriving DecidableEq, Repr

/-- `config['features']` (only the toggles the pipeline reads). -/
structure Features where
  auto_like_new_tracks : Bool
  auto_like_reposts : Bool
deriving DecidableEq, Repr

/-- `config['filters']`. -/
structure Filters where
  min_duration_seconds : Int
  max_duration_seconds : Int
  genres : List String
  min_likes : Int
deriving DecidableEq, Repr

/-- The configuration fields the pipeline reads (`load_config` result). -/
structure Config where
  auth_token : String
  your_username : String
  dry_run : Bool
  features : Features
  filters : Filters
deriving DecidableEq, Repr

/-- Python truthiness of a track id (`if track_id:`): `None` and `0` are
falsy. -/
def idTruthy : Option Int → Bool
  | none => false
  | some n => n != 0

/-- `if track_id: self.processed_tracks.add(track_id)`. -/
def insertTruthy (i : Option Int) (s : Finset ℤ) : Finset ℤ :=
  match i with
  | none => s
  | some n => if n ≠ 0 then insert n s else s

/-! ## Naive datetimes

`is_track_recent` parses `created_at` with `datetime.fromisoformat` (after
replacing `'Z'` with `'+00:00'`) and then strips the timezone with
`replace(tzinfo=None)` before comparing with `>`.  A timezone-stripped
("naive") Python datetime is a 7-tuple of calendar fields compared
lexicographically; we model it by the injective mixed-radix key below (the
parser validates the field ranges, under which the key order coincides with the
lexicographic order Python uses). -/

/-- A timezone-naive datetime value, as produced by
`datetime.fromisoformat(...).replace(tzinfo=None)`. -/
structure NaiveDateTime where
  year : Nat
  month : Nat
  day : Nat
  hour : Nat
  minute : Nat
  second : Nat
  microsecond : Nat
deriving DecidableEq, Repr

/-- Mixed-radix encoding of the calendar fields; strictly monotone in the
lexicographic order of valid (range-checked) field tuples. -/
def NaiveDateTime.key (t : NaiveDateTime) : Nat :=
  (((((t.year * 13 + t.month) * 32 + t.day) * 24 + t.hour) * 60 + t.minute) * 60 + t.second)
    * 1000000 + t.microsecond

instance : LT NaiveDateTime := ⟨fun a b => a.key < b.key⟩

instance (a b : NaiveDateTime) : Decidable (a < b) :=
  inferInstanceAs (Decidable (a.key < b.key))

/-- Value of a decimal digit character, if it is one. -/
def digitVal (c : Char) : Option Nat :=
  if c.isDigit then some (c.toNat - 48) else none

/-- Read exactly two decimal digits. -/
def read2 : List Char → Option (Nat × List Char)
  | a :: b :: rest => do
    let x ← digitVal a
    let y ← digitVal b
    some (10 * x + y, rest)
  | _ => none

/-- Read exactly four decimal digits. -/
def read4 : List Char → Option (Nat × List Char)
  | a :: b :: c :: d :: rest => do
    let x ← digitVal a
    let y ← digitVal b
    let z ← digitVal c
    let w ← digitVal d
    some (1000 * x + 100 * y + 10 * z + w, rest)
  | _ => none

/-- Expect a specific character. -/
def expectChar (c : Char) : List Char → Option (List Char)
  | x :: rest => if x = c then some rest else none
  | [] => none

/-- Longest digit run at the head of the input. -/
def takeDigits : List Char → List Nat × List Char
  | [] => ([], [])
  | c :: rest =>
    match digitVal c with
    | some d =>
      let (ds, r) := takeDigits rest
      (d :: ds, r)
    | none => ([], c :: rest)

/-- Fractional-second digits to microseconds (1 to 6 digits accepted, as in
`datetime.fromisoformat`). -/
def fracToMicro (ds : List Nat) : Option Nat :=
  if ds.length = 0 ∨ ds.length > 6 then none
  else some ((ds.foldl (fun a d => a * 10 + d) 0) * 10 ^ (6 - ds.length))

def isLeapYear (y : Nat) : Bool :=
  (y % 4 = 0 && y % 100 != 0) || y % 400 = 0

def daysInMonth (y m : Nat) : Nat :=
  if m = 2 then (if isLeapYear y then 29 else 28)
  else if m = 4 ∨ m = 6 ∨ m = 9 ∨ m = 11 then 30
  else 31

/-- A trailing UTC-offset suffix `±HH:MM`; its value is discarded because the
code strips the timezone (`replace(tzinfo=None)`) right after parsing.  Must
consume the rest of the input. -/
def parseOffset : List Char → Option Unit
  | [] => some ()
  | c :: rest =>
    if c = '+' ∨ c = '-' then do
      let (h, r) ← read2 rest
      let r ← expectChar ':' r
      let (m, r2) ← read2 r
      if h ≤ 23 ∧ m ≤ 59 ∧ r2 = [] then some () else none
    else none

/-- The time-of-day part `HH:MM[:SS[.ffffff]]` followed by an optional
offset. -/
def parseTimePart (cs : List Char) : Option (Nat × Nat × Nat × Nat) := do
  let (h, r) ← read2 cs
  let r ← expectChar ':' r
  let (mi, r) ← read2 r
  match r with
  | ':' :: r2 => do
    let (s, r3) ← read2 r2
    match r3 with
    | '.' :: r4 =>
      let (ds, r5) := takeDigits r4
      let mu ← fracToMicro ds
      let _ ← parseOffset r5
      some (h, mi, s, mu)
    | _ => do
      let _ ← parseOffset r3
      some (h, mi, s, 0)
  | _ => do
    let _ ← parseOffset r
    some (h, mi, 0, 0)

/-- `datetime.fromisoformat` on `YYYY-MM-DD[{T, }HH:MM[:SS[.ffffff]]][±HH:MM]`
followed by `replace(tzinfo=None)`: the offset, if present, is validated and
discarded.  Out-of-range fields raise `ValueError` in Python, modelled as
`none`. -/
def fromisoformatNaive (cs : List Char) : Option NaiveDateTime := do
  let (y, r) ← read4 cs
  let r ← expectChar '-' r
  let (mo, r) ← read2 r
  let r ← expectChar '-' r
  let (d, r) ← read2 r
  if 1 ≤ y ∧ 1 ≤ mo ∧ mo ≤ 12 ∧ 1 ≤ d ∧ d ≤ daysInMonth y mo then
    match r with
    | [] => some ⟨y, mo, d, 0, 0, 0, 0⟩
    | sep :: rest =>
      if sep = 'T' ∨ sep = ' ' then do
        let (h, mi, s, mu) ← parseTimePart rest
        if h ≤ 23 ∧ mi ≤ 59 ∧ s ≤ 59 then some ⟨y, mo, d, h, mi, s, mu⟩ else none
      else none
  else none

/-- `created_at.replace('Z', '+00:00')`. -/
def replaceZ : List Char → List Char
  | [] => []
  | c :: rest =>
    if c = 'Z' then '+' :: '0' :: '0' :: ':' :: '0' :: '0' :: replaceZ rest
    else c :: replaceZ rest

/-- The parse-and-strip-timezone step of `is_track_recent`:
`datetime.fromisoformat(created_at.replace('Z', '+00:00')).replace(tzinfo=None)`;
`none` models the `except` branch (unparseable timestamp). -/
def parseCreatedAt (s : String) : Option NaiveDateTime :=
  fromisoformatNaive (replaceZ s.data)

/-- `is_track_recent(track, cutoff_time)`: empty timestamp → recent;
unparseable timestamp (exception) → recent; otherwise recent iff the
timezone-stripped timestamp strictly exceeds the cutoff. -/
def is_track_recent (track : Track) (cutoff_time : NaiveDateTime) : Bool :=
  if track.created_at = "" then true
  else
    match parseCreatedAt track.created_at with
    | none => true
    | some track_time => decide (cutoff_time < track_time)

/-! ## Content filter -/

/-- ASCII `str.lower()` on one character (the deployed genre labels are
ASCII; Unicode case folding is out of scope). -/
def lowerChar (c : Char) : Char :=
  if 'A' ≤ c ∧ c ≤ 'Z' then Char.ofNat (c.toNat + 32) else c

/-- `s.lower()` as a character list. -/
def lowerStr (s : String) : List Char :=
  s.data.map lowerChar

/-- `apply_filters(track)`.  Sequential early-return checks of the source:
duration minimum (active only when `> 0`), duration maximum (active only when
`> 0`), case-insensitive genre allow-list (active only when non-empty), and
minimum like count.  Python's float division `duration_ms / 1000` is modelled
as exact rational division. -/
def apply_filters (filters : Filters) (track : Track) : Bool :=
  let duration_seconds : ℚ := (track.duration : ℚ) / 1000
  if filters.min_duration_seconds > 0 ∧ duration_seconds < (filters.min_duration_seconds : ℚ) then
    false
  else if filters.max_duration_seconds > 0 ∧ (filters.max_duration_seconds : ℚ) < duration_seconds then
    false
  else if filters.genres ≠ [] ∧ lowerStr track.genre ∉ filters.genres.map lowerStr then
    false
  else if track.likes_count < filters.min_likes then
    false
  else
    true

/-! ## Action executor -/

/-- `like_track(track)`.  Returns the reported success flag together with the
list of remote `client.like_track` invocations performed (by track id).
`remoteOk` is the environment oracle: whether the remote call succeeds or
raises.  In `dry_run` mode the function returns `True` before touching the
id, the credentials, or the network.  In live mode a falsy id or a falsy
`auth_token` is reported as failure without a remote call, and a raised
remote call is caught and reported as failure. -/
def like_track (cfg : Config) (remoteOk : Int → Bool) (track : Track) : Bool × List Int :=
  if cfg.dry_run then (true, [])
  else
    match track.id with
    | none => (false, [])
    | some track_id =>
      if track_id = 0 then (false, [])
      else if cfg.auth_token = "" then (false, [])
      else (remoteOk track_id, [track_id])

/-! ## process_tracks -/

/-- Observable state threaded through `process_tracks`: the mutable
`self.processed_tracks` set plus the recorded evaluations of `apply_filters`
(by track id), the invocations of `like_track` (by track id), and the remote
like calls actually issued. -/
structure ProcState where
  processed : Finset ℤ
  filterEvals : List (Option Int)
  attempts : List (Option Int)
  remoteCalls : List Int

/-- One iteration of the `for track in tracks` loop of `process_tracks`:
evaluate `apply_filters`; on rejection mark the (truthy) id handled; on pass
call `like_track` and mark the id handled only if it reported success. -/
def process_step (cfg : Config) (remoteOk : Int → Bool) (st : ProcState) (track : Track) :
    ProcState :=
  let st0 : ProcState := { st with filterEvals := st.filterEvals ++ [track.id] }
  if apply_filters cfg.filters track = false then
    { st0 with processed := insertTruthy track.id st0.processed }
  else
    let res := like_track cfg remoteOk track
    let st1 : ProcState :=
      { st0 with
        attempts := st0.attempts ++ [track.id]
        remoteCalls := st0.remoteCalls ++ res.2 }
    if res.1 then { st1 with processed := insertTruthy track.id st1.processed } else st1

/-- `process_tracks(tracks)` on the in-memory set `processed`; the source
function ends by calling `save_processed_tracks()`, which is represented by
the `saved` flag at the `run_once` level. -/
def process_tracks (cfg : Config) (remoteOk : Int → Bool) (tracks : List Track)
    (processed : Finset ℤ) : ProcState :=
  tracks.foldl (process_step cfg remoteOk) ⟨processed, [], [], []⟩

/-! ## Cross-source merge of run_once -/

/-- One iteration of the dedup loop of `run_once`:
`if track_id and track_id not in unique_tracks: unique_tracks[track_id] = track`.
The insertion-ordered dict is represented by the list of its values. -/
def insertUnique (acc : List Track) (track : Track) : List Track :=
  match track.id with
  | none => acc
  | some track_id =>
    if track_id ≠ 0 ∧ acc.all (fun u => u.id ≠ some track_id) then acc ++ [track]
    else acc

/-- `list(unique_tracks.values())`: first occurrence of each truthy id wins,
later duplicates are dropped, falsy ids are dropped. -/
def uniqueTracks (all_tracks : List Track) : List Track :=
  all_tracks.foldl insertUnique []

/-! ## Discovery -/

/-- Output of a discovery pass: the surviving candidate tracks, plus the
recorded evaluations of `is_track_recent` (by track id). -/
structure Discovered where
  found : List Track
  recencyEvals : List (Option Int)

/-- One stream item of `get_new_tracks_from_followings` (after
`get_track_info`): items with a falsy id are skipped; otherwise
`is_track_recent` is evaluated (its result is also logged), and the track is
collected iff its id is not in `processed` and it is recent. -/
def stream_item_step (cutoff : NaiveDateTime) (processed : Finset ℤ) (st : Discovered)
    (track : Track) : Discovered :=
  match track.id with
  | none => st
  | some track_id =>
    if track_id = 0 then st
    else
      let is_recent := is_track_recent track cutoff
      let st1 : Discovered := ⟨st.found, st.recencyEvals ++ [some track_id]⟩
      if track_id ∉ processed ∧ is_recent = true then ⟨st1.found ++ [track], st1.recencyEvals⟩
      else st1

/-- `get_new_tracks_from_followings()`.  Returns nothing when the feature is
off or the username is unset/the placeholder.  `streamItems` are the stream
elements after unwrap and `get_track_info` (items whose extraction failed are
skipped by the source loop and therefore omitted); `cutoff` is
`datetime.now() - timedelta(hours=hours_lookback)`, captured once for the
whole pass. -/
def get_new_tracks_from_followings (cfg : Config) (cutoff : NaiveDateTime)
    (streamItems : List Track) (processed : Finset ℤ) : Discovered :=
  if cfg.features.auto_like_new_tracks = false then ⟨[], []⟩
  else if cfg.your_username = "" ∨ cfg.your_username = "your_soundcloud_username" then ⟨[], []⟩
  else streamItems.foldl (stream_item_step cutoff processed) ⟨[], []⟩

/-- One configured source artist in `get_reposts_from_selected_artists`: the
resolved numeric id, whether `get_user_reposts` is available
(`use_repost_method`), and the fetched items after `get_track_info`.  Artists
whose resolution or fetch raised are skipped by the source loop and therefore
omitted from the feed list. -/
structure ArtistFeed where
  artistId : Int
  use_repost_method : Bool
  items : List Track

/-- One item of the per-artist loop of `get_reposts_from_selected_artists`:
falsy ids are skipped; `is_repost` is `True` for the dedicated repost query
and an author comparison otherwise; `is_track_recent` is evaluated for every
item with a truthy id; the track is collected iff it is a repost, not in
`processed`, and recent. -/
def repost_item_step (cutoff : NaiveDateTime) (processed : Finset ℤ) (artistId : Int)
    (use_repost_method : Bool) (st : Discovered) (track : Track) : Discovered :=
  match track.id with
  | none => st
  | some track_id =>
    if track_id = 0 then st
    else
      let is_repost : Bool := use_repost_method || decide (track.user.id ≠ some artistId)
      let is_recent := is_track_recent track cutoff
      let st1 : Discovered := ⟨st.found, st.recencyEvals ++ [some track_id]⟩
      if is_repost = true ∧ track_id ∉ processed ∧ is_recent = true then
        ⟨st1.found ++ [track], st1.recencyEvals⟩
      else st1

/-- `get_reposts_from_selected_artists()`. -/
def get_reposts_from_selected_artists (cfg : Config) (cutoff : NaiveDateTime)
    (feeds : List ArtistFeed) (processed : Finset ℤ) : Discovered :=
  if cfg.features.auto_like_reposts = false then ⟨[], []⟩
  else
    feeds.foldl
      (fun st feed =>
        feed.items.foldl (repost_item_step cutoff processed feed.artistId feed.use_repost_method)
          st)
      ⟨[], []⟩

/-! ## run_once -/

/-- Result of one `run_once` cycle: the processing state, whether
`save_processed_tracks` was executed this cycle, and the recency evaluations
performed during discovery. -/
structure CycleOut where
  state : ProcState
  saved : Bool
  recencyEvals : List (Option Int)

/-- `run_once()`: run both discovery paths, concatenate, dedupe by id
(first occurrence wins), and — only when the deduplicated batch is non-empty —
call `process_tracks`, which ends by saving the processed set.  With an empty
batch the code only logs and `save_processed_tracks` is not reached. -/
def run_once (cfg : Config) (remoteOk : Int → Bool) (cutoff : NaiveDateTime)
    (streamItems : List Track) (feeds : List ArtistFeed) (processed : Finset ℤ) : CycleOut :=
  let d1 := get_new_tracks_from_followings cfg cutoff streamItems processed
  let d2 := get_reposts_from_selected_artists cfg cutoff feeds processed
  let all_tracks := d1.found ++ d2.found
  let unique_tracks := uniqueTracks all_tracks
  if unique_tracks.isEmpty then ⟨⟨processed, [], [], []⟩, false, d1.recencyEvals ++ d2.recencyEvals⟩
  else ⟨process_tracks cfg remoteOk unique_tracks processed, true, d1.recencyEvals ++ d2.recencyEvals⟩

/-! ## Persistence -/

/-- JSON values, for the persisted dedup-state file. -/
inductive Json where
  | null
  | bool (b : Bool)
  | num (n : Int)
  | str (s : String)
  | arr (elems : List Json)
  | obj (fields : List (String × Json))

/-- The dedup-state file on disk: absent, or present with the result of
`json.load` on it (`Except.error` models an unparseable/corrupt file, on
which `json.load` raises). -/
inductive FileState where
  | absent
  | present (contents : Except String Json)

/-- `data.get(key)` on a JSON object. -/
def jsonGetField (j : Json) (key : String) : Option Json :=
  match j with
  | .obj fields => (fields.find? (fun p => p.1 = key)).map (fun p => p.2)
  | _ => none

/-- `load_processed_tracks()`: a missing file yields the empty set; a corrupt
file propagates the `json.load` exception (and `__init__` does not catch it,
so the process stops); otherwise `set(data.get('track_ids', []))`.  A present
non-object value makes `data.get` raise; the identifier list is modelled with
integer elements (the format the saver writes). -/
def load_processed_tracks (file : FileState) : Except String (Finset ℤ) :=
  match file with
  | .absent => .ok ∅
  | .present (.error e) => .error e
  | .present (.ok data) =>
    match data with
    | .obj _ =>
      match jsonGetField data "track_ids" with
      | none => .ok ∅
      | some (.arr xs) =>
        .ok (xs.filterMap (fun j => match j with | .num n => some n | _ => none)).toFinset
      | some _ => .error "TypeError"
    | _ => .error "AttributeError"

/-- The on-disk contents of the dedup-state file if the process crashes
during `save_processed_tracks` after `charsWritten` characters of the new
serialization have reached the disk.  The source opens the file with mode
`'w'`, which truncates it immediately, and then `json.dump` writes the
serialized text sequentially in place — there is no temporary file and no
rename. -/
def save_crash_content (serialized : String) (charsWritten : Nat) : String :=
  String.mk (serialized.data.take charsWritten)

/-! ## Scheduler -/

/-- Outcome of one iteration of the `while True` body of `run()` (a
`run_once()` call followed by the sleep): normal completion, a
`KeyboardInterrupt`, or an unexpected exception escaping `run_once`. -/
inductive CycleOutcome where
  | normal
  | interrupt
  | fatal (e : String)
deriving DecidableEq, Repr

/-- How `run()` exits, given a finite prefix of per-iteration outcomes. -/
inductive RunExit where
  | stillRunning
  | stoppedByUser
  | crashed (e : String)
deriving DecidableEq, Repr

/-- `run()`: `try: while True: run_once(); sleep(...)` with
`except KeyboardInterrupt` returning normally and `except Exception` logging
and re-raising.  `stillRunning` means the supplied outcome prefix was
exhausted with the loop still going. -/
def run_loop : List CycleOutcome → RunExit
  | [] => .stillRunning
  | .normal :: rest => run_loop rest
  | .interrupt :: _ => .stoppedByUser
  | .fatal e :: _ => .crashed e

/-! ## Concrete inputs for witnesses and counterexamples -/

/-- A configuration with both discovery features on, a set username, all
content filters disabled (the source defaults), and simulate mode. -/
def exCfg : Config :=
  { auth_token := ""
    your_username := "alice"
    dry_run := true
    features := { auto_like_new_tracks := true, auto_like_reposts := true }
    filters :=
      { min_duration_seconds := 0, max_duration_seconds := 0, genres := [], min_likes := 0 } }

/-- `exCfg` switched to live mode with a credential present. -/
def exCfgLive : Config :=
  { exCfg with dry_run := false, auth_token := "tok" }

/-- A concrete cutoff instant. -/
def exCutoff : NaiveDateTime := ⟨2024, 10, 30, 12, 34, 56, 0⟩

/-- Remote like calls always succeed. -/
def exRemote : Int → Bool := fun _ => true

/-- Remote like calls always raise. -/
def exRemoteFail : Int → Bool := fun _ => false

/-- A publisher identity. -/
def exUser : TrackUser := ⟨"bob", some 9⟩

/-- A 120-second track with the given id and creation timestamp. -/
def exTrack (i : Int) (ts : String) : Track :=
  ⟨some i, "song", "url", 120000, "", 3, ts, exUser⟩

/-- Same id as `exTrack i ts` but a distinct record (different title), to
observe which duplicate the merge keeps. -/
def exTrackDup (i : Int) (ts : String) : Track :=
  ⟨some i, "song-second-copy", "url2", 120000, "", 3, ts, exUser⟩

/-! ## Helper lemmas: process_tracks -/

/-- Branch normal form of `process_step`. -/
lemma process_step_eq (cfg : Config) (remoteOk : Int → Bool) (st : ProcState) (t : Track) :
    process_step cfg remoteOk st t =
      if apply_filters cfg.filters t = false then
        ⟨insertTruthy t.id st.processed, st.filterEvals ++ [t.id], st.attempts, st.remoteCalls⟩
      else if (like_track cfg remoteOk t).1 = true then
        ⟨insertTruthy t.id st.processed, st.filterEvals ++ [t.id], st.attempts ++ [t.id],
          st.remoteCalls ++ (like_track cfg remoteOk t).2⟩
      else
        ⟨st.processed, st.filterEvals ++ [t.id], st.attempts ++ [t.id],
          st.remoteCalls ++ (like_track cfg remoteOk t).2⟩ := by
  unfold process_step
  by_cases h : apply_filters cfg.filters t = false
  · simp [h]
  · by_cases h2 : (like_track cfg remoteOk t).1 = true <;> simp [h, h2]

lemma subset_insertTruthy (i : Option Int) (s : Finset ℤ) : s ⊆ insertTruthy i s := by
  match i with
  | none => exact Finset.Subset.refl s
  | some n =>
    by_cases hn : n ≠ 0
    · simp only [insertTruthy, if_pos hn]
      exact Finset.subset_insert n s
    · simp only [insertTruthy, if_neg hn]
      exact Finset.Subset.refl s

lemma process_step_processed_subset (cfg : Config) (remoteOk : Int → Bool) (st : ProcState)
    (t : Track) : st.processed ⊆ (process_step cfg remoteOk st t).processed := by
  rw [process_step_eq]
  split
  · exact subset_insertTruthy t.id st.processed
  · split
    · exact subset_insertTruthy t.id st.processed
    · exact Finset.Subset.refl st.processed

lemma foldl_process_processed_subset (cfg : Config) (remoteOk : Int → Bool) :
    ∀ (tracks : List Track) (st : ProcState),
      st.processed ⊆ (tracks.foldl (process_step cfg remoteOk) st).processed := by
  intro tracks
  induction tracks with
  | nil => intro st; exact Finset.Subset.refl st.processed
  | cons t rest ih =>
    intro st
    exact (process_step_processed_subset cfg remoteOk st t).trans (ih _)

lemma foldl_process_filterEvals (cfg : Config) (remoteOk : Int → Bool) :
    ∀ (tracks : List Track) (st : ProcState),
      (tracks.foldl (process_step cfg remoteOk) st).filterEvals =
        st.filterEvals ++ tracks.map (fun t => t.id) := by
  intro tracks
  induction tracks with
  | nil => intro st; simp
  | cons t rest ih =>
    intro st
    rw [List.foldl_cons, ih, process_step_eq]
    split
    · simp
    · split <;> simp

lemma foldl_process_attempts (cfg : Config) (remoteOk : Int → Bool) :
    ∀ (tracks : List Track) (st : ProcState),
      (tracks.foldl (process_step cfg remoteOk) st).attempts =
        st.attempts ++
          (tracks.filter (fun t => apply_filters cfg.filters t)).map (fun t => t.id) := by
  intro tracks
  induction tracks with
  | nil => intro st; simp
  | cons t rest ih =>
    intro st
    rw [List.foldl_cons, ih, process_step_eq]
    by_cases h : apply_filters cfg.filters t = false
    · rw [if_pos h]
      simp [List.filter_cons, h]
    · rw [if_neg h]
      have hb : apply_filters cfg.filters t = true := by
        cases hv : apply_filters cfg.filters t
        · exact absurd hv h
        · rfl
      split <;> simp [List.filter_cons, hb]

lemma mem_foldl_process (cfg : Config) (remoteOk : Int → Bool) :
    ∀ (tracks : List Track) (st : ProcState) (t : Track) (tid : ℤ),
      t ∈ tracks → t.id = some tid → tid ≠ 0 →
      (apply_filters cfg.filters t = false ∨ (like_track cfg remoteOk t).1 = true) →
      tid ∈ (tracks.foldl (process_step cfg remoteOk) st).processed := by
  intro tracks
  induction tracks with
  | nil => intro st t tid hmem; exact absurd hmem (List.not_mem_nil t)
  | cons u rest ih =>
    intro st t tid hmem hid htid hok
    rcases List.mem_cons.mp hmem with heq | hmem2
    · subst heq
      rw [List.foldl_cons]
      refine Finset.mem_of_subset (foldl_process_processed_subset cfg remoteOk rest _) ?_
      rw [process_step_eq]
      split
      · simp [insertTruthy, hid, htid]
      · rename_i h1
        split
        · simp [insertTruthy, hid, htid]
        · rename_i h2
          rcases hok with hrej | hsucc
          · exact absurd hrej h1
          · exact absurd hsucc h2
    · rw [List.foldl_cons]
      exact ih _ t tid hmem2 hid htid hok

lemma like_track_dry (cfg : Config) (remoteOk : Int → Bool) (t : Track)
    (h : cfg.dry_run = true) : like_track cfg remoteOk t = (true, []) := by
  simp [like_track, h]

lemma foldl_process_remoteCalls_dry (cfg : Config) (remoteOk : Int → Bool)
    (h : cfg.dry_run = true) :
    ∀ (tracks : List Track) (st : ProcState),
      (tracks.foldl (process_step cfg remoteOk) st).remoteCalls = st.remoteCalls := by
  intro tracks
  induction tracks with
  | nil => intro st; rfl
  | cons t rest ih =>
    intro st
    rw [List.foldl_cons, ih, process_step_eq, like_track_dry cfg remoteOk t h]
    split
    · rfl
    · simp

/-! ## Helper lemmas: the cross-source merge -/

/-- The track carries the given identifier. -/
def hasId (tid : ℤ) (t : Track) : Bool := decide (t.id = some tid)

lemma foldl_insertUnique_filter (tid : ℤ) (h0 : tid ≠ 0) :
    ∀ (all_tracks acc : List Track),
      (all_tracks.foldl insertUnique acc).filter (hasId tid) =
        acc.filter (hasId tid) ++
          (if (acc.filter (hasId tid)).isEmpty then
            (match all_tracks.find? (hasId tid) with
             | some t0 => [t0]
             | none => [])
           else []) := by
  intro all_tracks
  induction all_tracks with
  | nil =>
    intro acc
    cases h : (acc.filter (hasId tid)).isEmpty <;> simp [h]
  | cons t rest ih =>
    intro acc
    rw [List.foldl_cons]
    cases hid : t.id with
    | none =>
      have hseed : insertUnique acc t = acc := by simp [insertUnique, hid]
      have hneg : ¬ hasId tid t = true := by simp [hasId, hid]
      rw [hseed, List.find?_cons_of_neg rest hneg]
      exact ih acc
    | some s =>
      by_cases hs : s = tid
      · subst hs
        have hpos : hasId s t = true := by simp [hasId, hid]
        rw [List.find?_cons_of_pos rest hpos]
        by_cases hin : (acc.filter (hasId s)).isEmpty
        · have hnilf : acc.filter (hasId s) = [] := List.isEmpty_iff.mp hin
          have hall : acc.all (fun u => decide (u.id ≠ some s)) = true := by
            rw [List.all_eq_true]
            intro u hu
            have := List.filter_eq_nil_iff.mp hnilf u hu
            simp [hasId] at this
            simp [this]
          have hseed : insertUnique acc t = acc ++ [t] := by
            simp only [insertUnique, hid]
            rw [if_pos ⟨h0, hall⟩]
          rw [hseed, ih (acc ++ [t])]
          have hfa : (acc ++ [t]).filter (hasId s) = [t] := by
            rw [List.filter_append, hnilf]
            simp [hpos]
          rw [hfa]
          simp [hnilf, hin]
        · have hne : acc.filter (hasId s) ≠ [] := fun hc => hin (List.isEmpty_iff.mpr hc)
          have hall : ¬ (acc.all (fun u => decide (u.id ≠ some s)) = true) := by
            intro hc
            apply hne
            rw [List.filter_eq_nil_iff]
            intro u hu
            have := List.all_eq_true.mp hc u hu
            simp at this
            simp [hasId, this]
          have hseed : insertUnique acc t = acc := by
            simp only [insertUnique, hid]
            rw [if_neg (fun hc => hall hc.2)]
          rw [hseed, ih acc]
          simp [hin]
      · have hneg : ¬ hasId tid t = true := by simp [hasId, hid, hs]
        have hfilt : (insertUnique acc t).filter (hasId tid) = acc.filter (hasId tid) := by
          simp only [insertUnique, hid]
          split
          · rw [List.filter_append]
            simp [hneg]
          · rfl
        rw [List.find?_cons_of_neg rest hneg, ih (insertUnique acc t), hfilt]

lemma mem_foldl_insertUnique :
    ∀ (all_tracks acc : List Track) (t : Track),
      t ∈ all_tracks.foldl insertUnique acc → t ∈ acc ∨ t ∈ all_tracks := by
  intro all_tracks
  induction all_tracks with
  | nil => intro acc t h; exact Or.inl h
  | cons u rest ih =>
    intro acc t h
    rw [List.foldl_cons] at h
    rcases ih (insertUnique acc u) t h with hacc | hrest
    · have : t ∈ acc ∨ t = u := by
        cases hid : u.id with
        | none =>
          simp only [insertUnique, hid] at hacc
          exact Or.inl hacc
        | some s =>
          simp only [insertUnique, hid] at hacc
          split at hacc
          · rcases List.mem_append.mp hacc with h1 | h2
            · exact Or.inl h1
            · exact Or.inr (List.mem_singleton.mp h2)
          · exact Or.inl hacc
      rcases this with h1 | h2
      · exact Or.inl h1
      · exact Or.inr (by rw [h2]; exact List.mem_cons_self u rest)
    · exact Or.inr (List.mem_cons_of_mem u hrest)

/-! ## Helper lemmas: discovery -/

/-- Every track in the list has a non-falsy identifier that is not yet in
`processed` — the guarantee discovery gives about its survivors. -/
def FreshFound (processed : Finset ℤ) (l : List Track) : Prop :=
  ∀ t ∈ l, ∀ i : ℤ, t.id = some i → i ≠ 0 ∧ i ∉ processed

/-- The track's identifier is falsy or already handled (so discovery must not
yield it). -/
def idFalsyOrProcessed (processed : Finset ℤ) (t : Track) : Bool :=
  match t.id with
  | none => true
  | some i => decide (i = 0) || decide (i ∈ processed)

lemma stream_item_step_eq (cutoff : NaiveDateTime) (processed : Finset ℤ)
    (st : Discovered) (u : Track) :
    stream_item_step cutoff processed st u =
      match u.id with
      | none => st
      | some track_id =>
        if track_id = 0 then st
        else if track_id ∉ processed ∧ is_track_recent u cutoff = true then
          ⟨st.found ++ [u], st.recencyEvals ++ [some track_id]⟩
        else ⟨st.found, st.recencyEvals ++ [some track_id]⟩ := by
  unfold stream_item_step
  cases u.id with
  | none => rfl
  | some track_id =>
    by_cases hz : track_id = 0
    · simp [hz]
    · by_cases hcond : track_id ∉ processed ∧ is_track_recent u cutoff = true <;>
        simp [hz, hcond]

lemma repost_item_step_eq (cutoff : NaiveDateTime) (processed : Finset ℤ) (artistId : Int)
    (urm : Bool) (st : Discovered) (u : Track) :
    repost_item_step cutoff processed artistId urm st u =
      match u.id with
      | none => st
      | some track_id =>
        if track_id = 0 then st
        else if (urm || decide (u.user.id ≠ some artistId)) = true ∧ track_id ∉ processed ∧
            is_track_recent u cutoff = true then
          ⟨st.found ++ [u], st.recencyEvals ++ [some track_id]⟩
        else ⟨st.found, st.recencyEvals ++ [some track_id]⟩ := by
  unfold repost_item_step
  cases u.id with
  | none => rfl
  | some track_id =>
    by_cases hz : track_id = 0
    · simp [hz]
    · by_cases hcond : (urm || decide (u.user.id ≠ some artistId)) = true ∧
          track_id ∉ processed ∧ is_track_recent u cutoff = true <;>
        simp [hz, hcond]

lemma stream_item_step_fresh (cutoff : NaiveDateTime) (processed : Finset ℤ) (st : Discovered)
    (u : Track) (h : FreshFound processed st.found) :
    FreshFound processed (stream_item_step cutoff processed st u).found := by
  rw [stream_item_step_eq]
  cases hid : u.id with
  | none => exact h
  | some track_id =>
    dsimp only
    by_cases hz : track_id = 0
    · rw [if_pos hz]
      exact h
    · rw [if_neg hz]
      by_cases hcond : track_id ∉ processed ∧ is_track_recent u cutoff = true
      · rw [if_pos hcond]
        intro t ht i hi
        rcases List.mem_append.mp ht with h1 | h2
        · exact h t h1 i hi
        · rw [List.mem_singleton.mp h2] at hi
          rw [hid] at hi
          cases hi
          exact ⟨hz, hcond.1⟩
      · rw [if_neg hcond]
        exact h

lemma stream_fold_fresh (cutoff : NaiveDateTime) (processed : Finset ℤ) :
    ∀ (items : List Track) (st : Discovered), FreshFound processed st.found →
      FreshFound processed ((items.foldl (stream_item_step cutoff processed) st).found) := by
  intro items
  induction items with
  | nil => intro st h; exact h
  | cons u rest ih =>
    intro st h
    rw [List.foldl_cons]
    exact ih _ (stream_item_step_fresh cutoff processed st u h)

lemma repost_item_step_fresh (cutoff : NaiveDateTime) (processed : Finset ℤ) (artistId : Int)
    (urm : Bool) (st : Discovered) (u : Track) (h : FreshFound processed st.found) :
    FreshFound processed ((repost_item_step cutoff processed artistId urm st u).found) := by
  rw [repost_item_step_eq]
  cases hid : u.id with
  | none => exact h
  | some track_id =>
    dsimp only
    by_cases hz : track_id = 0
    · rw [if_pos hz]
      exact h
    · rw [if_neg hz]
      by_cases hcond : (urm || decide (u.user.id ≠ some artistId)) = true ∧
          track_id ∉ processed ∧ is_track_recent u cutoff = true
      · rw [if_pos hcond]
        intro t ht i hi
        rcases List.mem_append.mp ht with h1 | h2
        · exact h t h1 i hi
        · rw [List.mem_singleton.mp h2] at hi
          rw [hid] at hi
          cases hi
          exact ⟨hz, hcond.2.1⟩
      · rw [if_neg hcond]
        exact h

lemma repost_fold_fresh (cutoff : NaiveDateTime) (processed : Finset ℤ) (artistId : Int)
    (urm : Bool) :
    ∀ (items : List Track) (st : Discovered), FreshFound processed st.found →
      FreshFound processed
        ((items.foldl (repost_item_step cutoff processed artistId urm) st).found) := by
  intro items
  induction items with
  | nil => intro st h; exact h
  | cons u rest ih =>
    intro st h
    rw [List.foldl_cons]
    exact ih _ (repost_item_step_fresh cutoff processed artistId urm st u h)

lemma feeds_fold_fresh (cutoff : NaiveDateTime) (processed : Finset ℤ) :
    ∀ (feeds : List ArtistFeed) (st : Discovered), FreshFound processed st.found →
      FreshFound processed
        ((feeds.foldl
          (fun st feed =>
            feed.items.foldl
              (repost_item_step cutoff processed feed.artistId feed.use_repost_method) st)
          st).found) := by
  intro feeds
  induction feeds with
  | nil => intro st h; exact h
  | cons fd rest ih =>
    intro st h
    rw [List.foldl_cons]
    exact ih _ (repost_fold_fresh cutoff processed fd.artistId fd.use_repost_method fd.items st h)

lemma followings_found_fresh (cfg : Config) (cutoff : NaiveDateTime)
    (streamItems : List Track) (processed : Finset ℤ) :
    FreshFound processed (get_new_tracks_from_followings cfg cutoff streamItems processed).found := by
  unfold get_new_tracks_from_followings
  split
  · intro t ht; exact absurd ht (List.not_mem_nil t)
  · split
    · intro t ht; exact absurd ht (List.not_mem_nil t)
    · exact stream_fold_fresh cutoff processed streamItems ⟨[], []⟩
        (fun t ht => absurd ht (List.not_mem_nil t))

lemma reposts_found_fresh (cfg : Config) (cutoff : NaiveDateTime) (feeds : List ArtistFeed)
    (processed : Finset ℤ) :
    FreshFound processed (get_reposts_from_selected_artists cfg cutoff feeds processed).found := by
  unfold get_reposts_from_selected_artists
  split
  · intro t ht; exact absurd ht (List.not_mem_nil t)
  · exact feeds_fold_fresh cutoff processed feeds ⟨[], []⟩
      (fun t ht => absurd ht (List.not_mem_nil t))

lemma stream_item_step_stale (cutoff : NaiveDateTime) (processed : Finset ℤ) (st : Discovered)
    (u : Track) (h : idFalsyOrProcessed processed u = true) :
    (stream_item_step cutoff processed st u).found = st.found := by
  rw [stream_item_step_eq]
  cases hid : u.id with
  | none => rfl
  | some track_id =>
    dsimp only
    unfold idFalsyOrProcessed at h
    rw [hid] at h
    simp at h
    by_cases hz : track_id = 0
    · rw [if_pos hz]
    · rw [if_neg hz]
      have hp : track_id ∈ processed := h.resolve_left hz
      rw [if_neg (fun hc => hc.1 hp)]

lemma stream_fold_stale (cutoff : NaiveDateTime) (processed : Finset ℤ) :
    ∀ (items : List Track) (st : Discovered),
      (∀ u ∈ items, idFalsyOrProcessed processed u = true) →
      ((items.foldl (stream_item_step cutoff processed) st).found) = st.found := by
  intro items
  induction items with
  | nil => intro st _; rfl
  | cons u rest ih =>
    intro st h
    rw [List.foldl_cons, ih _ (fun v hv => h v (List.mem_cons_of_mem u hv)),
      stream_item_step_stale cutoff processed st u (h u (List.mem_cons_self u rest))]

lemma repost_item_step_stale (cutoff : NaiveDateTime) (processed : Finset ℤ) (artistId : Int)
    (urm : Bool) (st : Discovered) (u : Track) (h : idFalsyOrProcessed processed u = true) :
    (repost_item_step cutoff processed artistId urm st u).found = st.found := by
  rw [repost_item_step_eq]
  cases hid : u.id with
  | none => rfl
  | some track_id =>
    dsimp only
    unfold idFalsyOrProcessed at h
    rw [hid] at h
    simp at h
    by_cases hz : track_id = 0
    · rw [if_pos hz]
    · rw [if_neg hz]
      have hp : track_id ∈ processed := h.resolve_left hz
      rw [if_neg (fun hc => hc.2.1 hp)]

lemma repost_fold_stale (cutoff : NaiveDateTime) (processed : Finset ℤ) (artistId : Int)
    (urm : Bool) :
    ∀ (items : List Track) (st : Discovered),
      (∀ u ∈ items, idFalsyOrProcessed processed u = true) →
      ((items.foldl (repost_item_step cutoff processed artistId urm) st).found) = st.found := by
  intro items
  induction items with
  | nil => intro st _; rfl
  | cons u rest ih =>
    intro st h
    rw [List.foldl_cons, ih _ (fun v hv => h v (List.mem_cons_of_mem u hv)),
      repost_item_step_stale cutoff processed artistId urm st u (h u (List.mem_cons_self u rest))]

lemma feeds_fold_stale (cutoff : NaiveDateTime) (processed : Finset ℤ) :
    ∀ (feeds : List ArtistFeed) (st : Discovered),
      (∀ fd ∈ feeds, ∀ u ∈ fd.items, idFalsyOrProcessed processed u = true) →
      ((feeds.foldl
        (fun st feed =>
          feed.items.foldl
            (repost_item_step cutoff processed feed.artistId feed.use_repost_method) st)
        st).found) = st.found := by
  intro feeds
  induction feeds with
  | nil => intro st _; rfl
  | cons fd rest ih =>
    intro st h
    rw [List.foldl_cons, ih _ (fun g hg => h g (List.mem_cons_of_mem fd hg)),
      repost_fold_stale cutoff processed fd.artistId fd.use_repost_method fd.items st
        (h fd (List.mem_cons_self fd rest))]

/-! ## Claim theorems (first group) -/

/-- Previous on-disk contents of the dedup-state file. -/
def prevStoreContent : String :=
  "\x7b\"track_ids\": [1], \"last_updated\": \"2024-10-29T00:00:00\"\x7d"

/-- Serialization the saver is about to write. -/
def newStoreContent : String :=
  "\x7b\"track_ids\": [1, 2], \"last_updated\": \"2024-10-30T00:00:00\"\x7d"

/-- **C1.** The claim says the flush of the processed-set file is atomic under
process crash.  It is not: `save_processed_tracks` opens the store file with
mode `'w'`, which truncates it in place before `json.dump` writes, with no
temporary file and no rename.  Killing the process right after the open
(zero characters written) leaves the store empty — equal to neither the
previous contents nor the new contents — exactly the corruption the claim
rules out. -/
theorem save_processed_tracks_truncation_loss :
    save_crash_content newStoreContent 0 = "" ∧
    save_crash_content newStoreContent 0 ≠ prevStoreContent ∧
    save_crash_content newStoreContent 0 ≠ newStoreContent := by
  refine ⟨by decide, by decide, by decide⟩

/-- **C4 (counterexample).** A fatal error during a cycle does not let the
perpetual loop resume at the next interval: `run()` re-raises it, so the
following (normal) cycle is never reached — the loop terminates as
`crashed`, not `stillRunning`. -/
theorem run_loop_fatal_not_resumed :
    run_loop [CycleOutcome.fatal "boom", CycleOutcome.normal] = RunExit.crashed "boom" ∧
    run_loop [CycleOutcome.normal] = RunExit.stillRunning ∧
    RunExit.crashed "boom" ≠ RunExit.stillRunning := by
  refine ⟨rfl, rfl, by decide⟩

/-- **C4 (amended).** In perpetual mode a fatal (unexpected) error during any
cycle is logged and re-raised, terminating the scheduler loop after that
cycle: after any number of normally completed cycles, the first fatal cycle
makes `run` exit as `crashed` and no later cycle runs. -/
theorem run_loop_halts_on_fatal :
    ∀ (pre : List CycleOutcome) (e : String) (post : List CycleOutcome),
      (∀ c ∈ pre, c = CycleOutcome.normal) →
      run_loop (pre ++ CycleOutcome.fatal e :: post) = RunExit.crashed e := by
  intro pre
  induction pre with
  | nil => intro e post _; rfl
  | cons c rest ih =>
    intro e post h
    have hc := h c (List.mem_cons_self c rest)
    subst hc
    rw [List.cons_append]
    exact ih e post (fun d hd => h d (List.mem_cons_of_mem _ hd))

/-- Witness for `run_loop_halts_on_fatal` at a concrete outcome sequence. -/
theorem run_loop_halts_on_fatal_witness :
    run_loop ([CycleOutcome.normal] ++ CycleOutcome.fatal "boom" :: [CycleOutcome.normal]) =
      RunExit.crashed "boom" :=
  run_loop_halts_on_fatal [CycleOutcome.normal] "boom" [CycleOutcome.normal] (by decide)

/-- **C8.** `load_processed_tracks` returns the empty set, without error, when
the persisted state file is absent; when the file is present but corrupt the
`json.load` exception propagates unchanged (and `__init__` assigns
`self.processed_tracks = self.load_processed_tracks()` with no handler, so
the process stops rather than continuing with a silently reset history). -/
theorem load_processed_tracks_missing_vs_corrupt :
    load_processed_tracks FileState.absent = Except.ok ∅ ∧
    ∀ e : String, load_processed_tracks (FileState.present (Except.error e)) = Except.error e :=
  ⟨rfl, fun _ => rfl⟩

/-- Witness for `load_processed_tracks_missing_vs_corrupt` at a concrete
`json.load` error. -/
theorem load_processed_tracks_missing_vs_corrupt_witness :
    load_processed_tracks (FileState.present (Except.error "Expecting value: line 1 column 1")) =
      Except.error "Expecting value: line 1 column 1" :=
  load_processed_tracks_missing_vs_corrupt.2 "Expecting value: line 1 column 1"

/-- **C6.** `is_track_recent` decides recency exactly as claimed: a track is
recent iff its creation timestamp is missing, unparseable, or — parsed and
timezone-stripped into the same naive clock as the cutoff — strictly exceeds
the cutoff.  Consequently a timestamp equal to the cutoff is not recent, a
later one is, and missing/unparseable timestamps are always recent. -/
theorem is_track_recent_spec :
    ∀ (track : Track) (cutoff : NaiveDateTime),
      is_track_recent track cutoff = true ↔
        (parseCreatedAt track.created_at = none ∨
          ∃ t, parseCreatedAt track.created_at = some t ∧ cutoff < t) := by
  intro track cutoff
  unfold is_track_recent
  by_cases he : track.created_at = ""
  · rw [if_pos he, he]
    have h0 : parseCreatedAt "" = none := rfl
    simp [h0]
  · rw [if_neg he]
    cases hp : parseCreatedAt track.created_at with
    | none => simp [hp]
    | some t => simp [hp]

/-- Witness for `is_track_recent_spec`: the recency boundary at a concrete
cutoff — equal timestamp rejected, one second later accepted, missing and
unparseable timestamps accepted. -/
theorem is_track_recent_spec_witness :
    is_track_recent (exTrack 5 "2024-10-30T12:34:57Z") exCutoff = true ∧
    is_track_recent (exTrack 5 "") exCutoff = true ∧
    is_track_recent (exTrack 5 "not-a-date") exCutoff = true ∧
    is_track_recent (exTrack 5 "2024-10-30T12:34:56Z") exCutoff = false := by
  refine ⟨?_, ?_, ?_, by decide⟩
  · exact (is_track_recent_spec (exTrack 5 "2024-10-30T12:34:57Z") exCutoff).mpr
      (Or.inr ⟨⟨2024, 10, 30, 12, 34, 57, 0⟩, by decide, by decide⟩)
  · exact (is_track_recent_spec (exTrack 5 "") exCutoff).mpr (Or.inl (by decide))
  · exact (is_track_recent_spec (exTrack 5 "not-a-date") exCutoff).mpr (Or.inl (by decide))

/-- **C10.** Zero/empty thresholds disable filter rules instead of rejecting
everything: with `min_duration_seconds = 0`, `max_duration_seconds = 0`, an
empty genre allow-list and a satisfied like minimum, `apply_filters` admits
every track (in particular a 0-second track, a track of any length and any
category); and a track failing any active rule — too short, too long, genre
outside a non-empty allow-list, or too few likes — is rejected. -/
theorem apply_filters_zero_disabled :
    ∀ (f : Filters) (t : Track),
      (f.min_duration_seconds = 0 → f.max_duration_seconds = 0 → f.genres = [] →
        f.min_likes ≤ t.likes_count → apply_filters f t = true) ∧
      (0 < f.min_duration_seconds → (t.duration : ℚ) / 1000 < (f.min_duration_seconds : ℚ) →
        apply_filters f t = false) ∧
      (0 < f.max_duration_seconds → (f.max_duration_seconds : ℚ) < (t.duration : ℚ) / 1000 →
        apply_filters f t = false) ∧
      (f.genres ≠ [] → lowerStr t.genre ∉ f.genres.map lowerStr → apply_filters f t = false) ∧
      (t.likes_count < f.min_likes → apply_filters f t = false) := by
  intro f t
  refine ⟨?_, ?_, ?_, ?_, ?_⟩
  · intro h1 h2 h3 h4
    simp only [apply_filters]
    split_ifs with hc1 hc2 hc3 hc4
    · exact absurd hc1.1 (by omega)
    · exact absurd hc2.1 (by omega)
    · exact absurd hc3.1 (by simp [h3])
    · exact absurd hc4 (by omega)
    · rfl
  · intro hpos hlt
    simp only [apply_filters]
    split_ifs with hc1 hc2 hc3 hc4 <;> first | rfl | exact absurd ⟨hpos, hlt⟩ hc1
  · intro hpos hgt
    simp only [apply_filters]
    split_ifs with hc1 hc2 hc3 hc4 <;> first | rfl | exact absurd ⟨hpos, hgt⟩ hc2
  · intro hne hnot
    simp only [apply_filters]
    split_ifs with hc1 hc2 hc3 hc4 <;> first | rfl | exact absurd ⟨hne, hnot⟩ hc3
  · intro hlt
    simp only [apply_filters]
    split_ifs with hc1 hc2 hc3 <;> rfl

/-- Witness for `apply_filters_zero_disabled`: the all-disabled configuration
admits a 0-second track. -/
theorem apply_filters_zero_disabled_witness :
    apply_filters exCfg.filters ⟨some 3, "zero", "u", 0, "ambient", 0, "", exUser⟩ = true :=
  (apply_filters_zero_disabled exCfg.filters ⟨some 3, "zero", "u", 0, "ambient", 0, "", exUser⟩).1
    rfl rfl rfl (by decide)

/-- **C5.** Finalization policy of `process_tracks`: a batch track with a
valid (truthy) identifier has its id added to the processed set when the
content filter rejects it or when its `like_track` call reports success; a
track whose like attempt fails is not added and so stays eligible for a
future cycle. -/
theorem process_tracks_finalization :
    ∀ (cfg : Config) (remoteOk : Int → Bool) (tracks : List Track) (processed : Finset ℤ)
      (t : Track) (tid : ℤ), t.id = some tid → tid ≠ 0 →
      ((t ∈ tracks →
          (apply_filters cfg.filters t = false ∨ (like_track cfg remoteOk t).1 = true) →
          tid ∈ (process_tracks cfg remoteOk tracks processed).processed) ∧
       (apply_filters cfg.filters t = true → (like_track cfg remoteOk t).1 = false →
          tid ∉ processed → tid ∉ (process_tracks cfg remoteOk [t] processed).processed)) := by
  intro cfg remoteOk tracks processed t tid hid htid
  constructor
  · intro hmem hok
    exact mem_foldl_process cfg remoteOk tracks ⟨processed, [], [], []⟩ t tid hmem hid htid hok
  · intro hflt hlike hnot
    unfold process_tracks
    rw [List.foldl_cons, List.foldl_nil, process_step_eq]
    rw [if_neg (by simp [hflt]), if_neg (by simp [hlike])]
    exact hnot

/-- Witness for `process_tracks_finalization`: in live mode a successful like
marks the track handled, a failing remote like leaves it unmarked. -/
theorem process_tracks_finalization_witness :
    (7 : ℤ) ∈ (process_tracks exCfgLive exRemote [exTrack 7 ""] ∅).processed ∧
    (7 : ℤ) ∉ (process_tracks exCfgLive exRemoteFail [exTrack 7 ""] ∅).processed := by
  constructor
  · exact (process_tracks_finalization exCfgLive exRemote [exTrack 7 ""] ∅ (exTrack 7 "") 7
      (by decide) (by decide)).1 (by decide) (Or.inr (by decide))
  · exact (process_tracks_finalization exCfgLive exRemoteFail [exTrack 7 ""] ∅ (exTrack 7 "") 7
      (by decide) (by decide)).2 (by decide) (by decide) (by decide)

/-- **C9.** Simulate-mode purity: with `dry_run` on, `like_track` performs no
remote call and reports success for every track, `process_tracks` issues no
remote call on any batch, and every content-filter survivor with a valid id
is still marked handled in the processed set. -/
theorem simulate_mode_purity :
    ∀ (cfg : Config) (remoteOk : Int → Bool) (tracks : List Track) (processed : Finset ℤ),
      cfg.dry_run = true →
      ((∀ t, like_track cfg remoteOk t = (true, [])) ∧
       (process_tracks cfg remoteOk tracks processed).remoteCalls = [] ∧
       (∀ t ∈ tracks, ∀ tid : ℤ, t.id = some tid → tid ≠ 0 →
          apply_filters cfg.filters t = true →
          tid ∈ (process_tracks cfg remoteOk tracks processed).processed)) := by
  intro cfg remoteOk tracks processed hdry
  refine ⟨fun t => like_track_dry cfg remoteOk t hdry, ?_, ?_⟩
  · exact foldl_process_remoteCalls_dry cfg remoteOk hdry tracks ⟨processed, [], [], []⟩
  · intro t hmem tid hid htid hflt
    refine mem_foldl_process cfg remoteOk tracks ⟨processed, [], [], []⟩ t tid hmem hid htid ?_
    exact Or.inr (by rw [like_track_dry cfg remoteOk t hdry])

/-- Witness for `simulate_mode_purity`: even with an always-failing remote
oracle, dry-run mode reports success, issues no remote call, and marks the
surviving track handled. -/
theorem simulate_mode_purity_witness :
    like_track exCfg exRemoteFail (exTrack 8 "") = (true, []) ∧
    (process_tracks exCfg exRemoteFail [exTrack 8 ""] ∅).remoteCalls = [] ∧
    (8 : ℤ) ∈ (process_tracks exCfg exRemoteFail [exTrack 8 ""] ∅).processed := by
  have h := simulate_mode_purity exCfg exRemoteFail [exTrack 8 ""] ∅ rfl
  exact ⟨h.1 (exTrack 8 ""), h.2.1,
    h.2.2 (exTrack 8 "") (by decide) 8 (by decide) (by decide) (by decide)⟩

/-! ## Claim theorems (pipeline group) -/

lemma followings_found_stale (cfg : Config) (cutoff : NaiveDateTime)
    (streamItems : List Track) (processed : Finset ℤ)
    (h : ∀ u ∈ streamItems, idFalsyOrProcessed processed u = true) :
    (get_new_tracks_from_followings cfg cutoff streamItems processed).found = [] := by
  unfold get_new_tracks_from_followings
  split
  · rfl
  · split
    · rfl
    · exact stream_fold_stale cutoff processed streamItems ⟨[], []⟩ h

lemma reposts_found_stale (cfg : Config) (cutoff : NaiveDateTime) (feeds : List ArtistFeed)
    (processed : Finset ℤ)
    (h : ∀ fd ∈ feeds, ∀ u ∈ fd.items, idFalsyOrProcessed processed u = true) :
    (get_reposts_from_selected_artists cfg cutoff feeds processed).found = [] := by
  unfold get_reposts_from_selected_artists
  split
  · rfl
  · exact feeds_fold_stale cutoff processed feeds ⟨[], []⟩ h

/-- **C2 (counterexample).** A cycle in which discovery yields zero surviving
candidate tracks does not write the processed set: with empty discovery
output, `run_once` takes the `else` branch that only logs, so
`save_processed_tracks` never runs that cycle — refuting "written to stable
storage after every cycle". -/
theorem run_once_zero_candidates_no_save :
    (run_once exCfg exRemote exCutoff [] [] ∅).saved = false := by decide

/-- **C2 (amended).** The processed set is written to stable storage after
every cycle whose deduplicated candidate batch is non-empty; in a cycle with
an empty batch `process_tracks` (whose final statement performs the save) is
not invoked, no write occurs, and the in-memory set is unchanged. -/
theorem run_once_saves_iff_batch_nonempty :
    ∀ (cfg : Config) (remoteOk : Int → Bool) (cutoff : NaiveDateTime)
      (streamItems : List Track) (feeds : List ArtistFeed) (processed : Finset ℤ),
      ((uniqueTracks ((get_new_tracks_from_followings cfg cutoff streamItems processed).found ++
          (get_reposts_from_selected_artists cfg cutoff feeds processed).found)).isEmpty = false →
        (run_once cfg remoteOk cutoff streamItems feeds processed).saved = true) ∧
      ((uniqueTracks ((get_new_tracks_from_followings cfg cutoff streamItems processed).found ++
          (get_reposts_from_selected_artists cfg cutoff feeds processed).found)).isEmpty = true →
        (run_once cfg remoteOk cutoff streamItems feeds processed).saved = false ∧
        (run_once cfg remoteOk cutoff streamItems feeds processed).state.processed = processed) := by
  intro cfg remoteOk cutoff streamItems feeds processed
  constructor
  · intro h
    simp only [run_once]
    rw [if_neg (by simp [h])]
  · intro h
    simp only [run_once]
    rw [if_pos h]
    exact ⟨rfl, rfl⟩

/-- Witness for `run_once_saves_iff_batch_nonempty`: one surviving candidate
makes the cycle save. -/
theorem run_once_saves_iff_batch_nonempty_witness :
    (run_once exCfg exRemote exCutoff [exTrack 5 ""] [] ∅).saved = true :=
  (run_once_saves_iff_batch_nonempty exCfg exRemote exCutoff [exTrack 5 ""] [] ∅).1 (by decide)

/-- **C3 (counterexample).** An identifier already in the processed set IS
re-evaluated by the recency filter in a later cycle: the discovery loops
compute `is_track_recent` for every stream item with a truthy id (the result
is logged) before the membership test, so a cycle whose stream presents the
already-processed track id 1 records a recency evaluation for it — refuting
"never re-evaluated by RecencyFilter". -/
theorem processed_track_recency_reevaluated :
    (1 : ℤ) ∈ ({1} : Finset ℤ) ∧
    some (1 : ℤ) ∈ (run_once exCfg exRemote exCutoff [exTrack 1 ""] [] {1}).recencyEvals := by
  refine ⟨by decide, by decide⟩

/-- **C3 (amended).** For every identifier already in the processed set,
re-running the pipeline on source output containing that track produces no
action attempt on it and no content-filter evaluation of it (it never reaches
the batch), and when every presented item is falsy or already processed the
cycle performs no action attempts at all and leaves the processed set
unchanged; the recency filter, however, is still evaluated on such items
during discovery (for logging) — see `processed_track_recency_reevaluated`. -/
theorem processed_ids_not_refiltered_or_reacted :
    ∀ (cfg : Config) (remoteOk : Int → Bool) (cutoff : NaiveDateTime)
      (streamItems : List Track) (feeds : List ArtistFeed) (processed : Finset ℤ) (tid : ℤ),
      tid ∈ processed →
      ((some tid ∉ (run_once cfg remoteOk cutoff streamItems feeds processed).state.filterEvals ∧
        some tid ∉ (run_once cfg remoteOk cutoff streamItems feeds processed).state.attempts) ∧
       ((∀ u ∈ streamItems, idFalsyOrProcessed processed u = true) →
        (∀ fd ∈ feeds, ∀ u ∈ fd.items, idFalsyOrProcessed processed u = true) →
        (run_once cfg remoteOk cutoff streamItems feeds processed).state.processed = processed ∧
        (run_once cfg remoteOk cutoff streamItems feeds processed).state.attempts = [])) := by
  intro cfg remoteOk cutoff streamItems feeds processed tid hmemp
  have hfresh : FreshFound processed
      ((get_new_tracks_from_followings cfg cutoff streamItems processed).found ++
       (get_reposts_from_selected_artists cfg cutoff feeds processed).found) := by
    intro t ht i hi
    rcases List.mem_append.mp ht with h1 | h2
    · exact followings_found_fresh cfg cutoff streamItems processed t h1 i hi
    · exact reposts_found_fresh cfg cutoff feeds processed t h2 i hi
  have huniq : FreshFound processed
      (uniqueTracks ((get_new_tracks_from_followings cfg cutoff streamItems processed).found ++
        (get_reposts_from_selected_artists cfg cutoff feeds processed).found)) := by
    intro t ht i hi
    unfold uniqueTracks at ht
    rcases mem_foldl_insertUnique _ [] t ht with habs | hall
    · exact absurd habs (List.not_mem_nil t)
    · exact hfresh t hall i hi
  constructor
  · simp only [run_once]
    by_cases hE :
        (uniqueTracks ((get_new_tracks_from_followings cfg cutoff streamItems processed).found ++
          (get_reposts_from_selected_artists cfg cutoff feeds processed).found)).isEmpty = true
    · rw [if_pos hE]
      exact ⟨List.not_mem_nil _, List.not_mem_nil _⟩
    · rw [if_neg hE]
      constructor
      · intro hmem
        have hF := foldl_process_filterEvals cfg remoteOk
          (uniqueTracks
            ((get_new_tracks_from_followings cfg cutoff streamItems processed).found ++
             (get_reposts_from_selected_artists cfg cutoff feeds processed).found))
          ⟨processed, [], [], []⟩
        rw [List.nil_append] at hF
        unfold process_tracks at hmem
        rw [hF] at hmem
        obtain ⟨t, htmem, hteq⟩ := List.mem_map.mp hmem
        exact absurd hmemp (huniq t htmem tid hteq).2
      · intro hmem
        have hA := foldl_process_attempts cfg remoteOk
          (uniqueTracks
            ((get_new_tracks_from_followings cfg cutoff streamItems processed).found ++
             (get_reposts_from_selected_artists cfg cutoff feeds processed).found))
          ⟨processed, [], [], []⟩
        rw [List.nil_append] at hA
        unfold process_tracks at hmem
        rw [hA] at hmem
        obtain ⟨t, htmem, hteq⟩ := List.mem_map.mp hmem
        exact absurd hmemp (huniq t (List.mem_filter.mp htmem).1 tid hteq).2
  · intro hs hf
    have h1 := followings_found_stale cfg cutoff streamItems processed hs
    have h2 := reposts_found_stale cfg cutoff feeds processed hf
    simp only [run_once, h1, h2]
    exact ⟨rfl, rfl⟩

/-- Witness for `processed_ids_not_refiltered_or_reacted` at a concrete
already-processed track. -/
theorem processed_ids_not_refiltered_or_reacted_witness :
    some (1 : ℤ) ∉ (run_once exCfg exRemote exCutoff [exTrack 1 ""] [] {1}).state.filterEvals ∧
    (run_once exCfg exRemote exCutoff [exTrack 1 ""] [] {1}).state.processed = {1} := by
  have h := processed_ids_not_refiltered_or_reacted exCfg exRemote exCutoff [exTrack 1 ""] []
    ({1} : Finset ℤ) 1 (by decide)
  exact ⟨h.1.1, (h.2 (by decide) (by decide)).1⟩

/-- **C7.** Cross-source dedup within one cycle: when an identifier is
yielded by both the new-tracks path and the reposts path, the merged batch
keeps exactly the first occurrence of that identifier (later duplicates are
silently dropped by the `unique_tracks` dict), and the number of `like_track`
attempts for it that cycle is exactly one when the kept record passes the
content filter, zero otherwise — never two. -/
theorem cross_source_dedup :
    ∀ (cfg : Config) (remoteOk : Int → Bool) (cutoff : NaiveDateTime)
      (streamItems : List Track) (feeds : List ArtistFeed) (processed : Finset ℤ)
      (tid : ℤ) (t0 : Track),
      tid ≠ 0 →
      some tid ∈ (get_new_tracks_from_followings cfg cutoff streamItems processed).found.map
        (fun t => t.id) →
      some tid ∈ (get_reposts_from_selected_artists cfg cutoff feeds processed).found.map
        (fun t => t.id) →
      ((get_new_tracks_from_followings cfg cutoff streamItems processed).found ++
        (get_reposts_from_selected_artists cfg cutoff feeds processed).found).find?
          (hasId tid) = some t0 →
      ((uniqueTracks ((get_new_tracks_from_followings cfg cutoff streamItems processed).found ++
          (get_reposts_from_selected_artists cfg cutoff feeds processed).found)).filter
          (hasId tid) = [t0] ∧
       ((run_once cfg remoteOk cutoff streamItems feeds processed).state.attempts.countP
          (fun o => decide (o = some tid))) =
         (if apply_filters cfg.filters t0 = true then 1 else 0)) := by
  intro cfg remoteOk cutoff streamItems feeds processed tid t0 h0 hin1 hin2 hfind
  have hfilter :
      (uniqueTracks ((get_new_tracks_from_followings cfg cutoff streamItems processed).found ++
        (get_reposts_from_selected_artists cfg cutoff feeds processed).found)).filter
        (hasId tid) = [t0] := by
    unfold uniqueTracks
    rw [foldl_insertUnique_filter tid h0
      ((get_new_tracks_from_followings cfg cutoff streamItems processed).found ++
        (get_reposts_from_selected_artists cfg cutoff feeds processed).found) []]
    simp [hfind]
  have hne :
      uniqueTracks ((get_new_tracks_from_followings cfg cutoff streamItems processed).found ++
        (get_reposts_from_selected_artists cfg cutoff feeds processed).found) ≠ [] := by
    intro hc
    rw [hc] at hfilter
    exact absurd hfilter (by simp)
  have hE :
      (uniqueTracks ((get_new_tracks_from_followings cfg cutoff streamItems processed).found ++
        (get_reposts_from_selected_artists cfg cutoff feeds processed).found)).isEmpty = false :=
    List.isEmpty_eq_false.mpr hne
  refine ⟨hfilter, ?_⟩
  simp only [run_once]
  rw [if_neg (by simp [hE])]
  have hA := foldl_process_attempts cfg remoteOk
    (uniqueTracks ((get_new_tracks_from_followings cfg cutoff streamItems processed).found ++
      (get_reposts_from_selected_artists cfg cutoff feeds processed).found))
    ⟨processed, [], [], []⟩
  rw [List.nil_append] at hA
  show (process_tracks cfg remoteOk _ processed).attempts.countP _ =
    (if apply_filters cfg.filters t0 = true then 1 else 0)
  unfold process_tracks
  rw [hA, List.countP_map]
  have hcomp : ((fun o => decide (o = some tid)) ∘ fun (t : Track) => t.id) = hasId tid := by
    funext t
    simp [hasId, Function.comp]
  rw [hcomp, List.countP_eq_length_filter]
  have hswap :
      ∀ (l : List Track),
        (l.filter (fun t => apply_filters cfg.filters t)).filter (hasId tid) =
          (l.filter (hasId tid)).filter (fun t => apply_filters cfg.filters t) := by
    intro l
    rw [List.filter_filter, List.filter_filter]
    apply List.filter_congr
    intro a _
    rw [Bool.and_comm]
  rw [hswap, hfilter]
  by_cases hp : apply_filters cfg.filters t0 = true <;> simp [hp]

/-- Witness for `cross_source_dedup`: id 5 arrives from the stream and from an
artist feed; the first record is kept and exactly one like attempt occurs. -/
theorem cross_source_dedup_witness :
    (uniqueTracks ((get_new_tracks_from_followings exCfg exCutoff [exTrack 5 ""] ∅).found ++
        (get_reposts_from_selected_artists exCfg exCutoff [⟨99, true, [exTrackDup 5 ""]⟩]
          ∅).found)).filter (hasId 5) = [exTrack 5 ""] ∧
    ((run_once exCfg exRemote exCutoff [exTrack 5 ""] [⟨99, true, [exTrackDup 5 ""]⟩]
        ∅).state.attempts.countP (fun o => decide (o = some 5))) = 1 := by
  have h := cross_source_dedup exCfg exRemote exCutoff [exTrack 5 ""]
    [⟨99, true, [exTrackDup 5 ""]⟩] ∅ 5 (exTrack 5 "") (by decide) (by decide) (by decide)
    (by decide)
  exact ⟨h.1, h.2.trans (by decide)⟩

end SoundcloudBot
